import Mathlib

/-!
Verification of the chain-metadata service core (`src/indexer.rs`,
`src/dataloader.rs`, `src/models.rs`, `src/schema.rs`, `src/errors.rs`)
against its specification.  The Rust code is shallowly embedded: the
mock event store becomes an association list keyed by the event id,
machine integers become `Nat`/`Int`, and fallible operations return
`Except`.
-/

namespace ChainMeta

/-- JSON-like structured payload value, modelling `serde_json::Value`
used for `Event.data` in `src/models.rs`. -/
inductive Json where
  | null : Json
  | bool (b : Bool) : Json
  | num (n : Int) : Json
  | str (s : String) : Json
  | arr (elems : List Json) : Json
  | obj (fields : List (String × Json)) : Json

/-- `ChainInfo` from `src/models.rs`.  `DateTime<Utc>` timestamps are
modelled as integers. -/
structure ChainInfo where
  id : String
  name : String
  version : String
  token_symbol : String
  decimals : Nat
  ssv58_prefix : Nat
  last_updated : Int
deriving DecidableEq

/-- `Event` from `src/models.rs`. -/
structure Event where
  id : String
  block_number : Nat
  extrinsic_id : Option String
  timestamp : Int
  pallet_name : String
  event_name : String
  data : Json
  chain_id : String

/-- `EventFilterInput` from `src/models.rs`: optional equality
predicates on pallet and event name, optional inclusive block-number
bounds. -/
structure EventFilterInput where
  pallet_name_eq : Option String
  event_name_eq : Option String
  block_number_gte : Option Nat
  block_number_lte : Option Nat
deriving DecidableEq

/-- `AppError` from `src/errors.rs` (payloads reduced to their message
strings). -/
inductive AppError where
  | config (msg : String)
  | ioErr (msg : String)
  | internal (msg : String)
  | notFound (msg : String)
  | graphQLExecution (msg : String)
  | serviceError (msg : String)
deriving DecidableEq

/-- Result of acquiring the store mutex: `std::sync::Mutex::lock`
either yields the guarded data or reports the lock as poisoned. -/
inductive LockResult (α : Type) where
  | ok (a : α) : LockResult α
  | poisoned (msg : String) : LockResult α

/-- Replace-or-append insertion on an association list, modelling
`HashMap::insert` (a colliding key overwrites the stored value). -/
def assocInsert {α : Type} (m : List (String × α)) (k : String) (v : α) :
    List (String × α) :=
  match m with
  | [] => [(k, v)]
  | (k0, v0) :: rest =>
    if k0 = k then (k, v) :: rest else (k0, v0) :: assocInsert rest k v

/-- Key lookup on an association list, modelling `HashMap::get`. -/
def assocGet {α : Type} (m : List (String × α)) (k : String) : Option α :=
  match m with
  | [] => none
  | (k0, v0) :: rest => if k0 = k then some v0 else assocGet rest k

/-- The static `MOCK_CHAIN_INFO` value from `src/indexer.rs` (its
`Utc::now()` creation instant modelled as 0). -/
def MOCK_CHAIN_INFO : ChainInfo :=
  { id := "polkadot-mainnet-mock"
    name := "Polkadot (Mock)"
    version := "0.9.99-mock"
    token_symbol := "MDOT"
    decimals := 10
    ssv58_prefix := 0
    last_updated := 0 }

/-- `MockEventStore` from `src/indexer.rs`: the event map and the chain
id (the broadcast sender is modelled separately, as the published
message history). -/
structure MockEventStore where
  events : List (String × Event)
  chain_id : String

/-- The event-map write performed by `simulate_new_event` in
`src/indexer.rs`: `store_guard.events.insert(event_id, new_event)`. -/
def insert_event (store : MockEventStore) (e : Event) : MockEventStore :=
  { store with events := assocInsert store.events e.id e }

/-- The lookup in `SubstrateIndexerService::get_event_by_id`:
`store.events.get(&id).cloned()`. -/
def get_event_by_id (store : MockEventStore) (id : String) : Option Event :=
  assocGet store.events id

/-- `SubstrateIndexerService::get_event_by_id` including the mutex
acquisition: a poisoned lock is mapped to `AppError::Internal` and
propagated with `?`. -/
def get_event_by_id_locked (lock : LockResult MockEventStore) (id : String) :
    Except AppError (Option Event) :=
  match lock with
  | .poisoned msg => .error (.internal ("Failed to lock event store: " ++ msg))
  | .ok store => .ok (get_event_by_id store id)

/-- The filter closure inside `SubstrateIndexerService::list_events`:
each present predicate is tested and the results are ANDed via
`matches &= ...`. -/
def event_matches (f : EventFilterInput) (e : Event) : Bool :=
  (match f.pallet_name_eq with
   | some pn => decide (e.pallet_name = pn)
   | none => true) &&
  (match f.event_name_eq with
   | some en => decide (e.event_name = en)
   | none => true) &&
  (match f.block_number_gte with
   | some lo => decide (lo ≤ e.block_number)
   | none => true) &&
  (match f.block_number_lte with
   | some hi => decide (e.block_number ≤ hi)
   | none => true)

/-- The comparator of `events.sort_by(|a, b| b.timestamp.cmp(&a.timestamp))`
in `list_events`: newest first. -/
def ts_desc (a b : Event) : Bool := decide (b.timestamp ≤ a.timestamp)

/-- `SubstrateIndexerService::list_events` on an acquired store: clone
the values, retain the events matched by the filter (if any), sort by
timestamp descending. -/
def list_events (store : MockEventStore) (filter : Option EventFilterInput) :
    List Event :=
  let events := store.events.map Prod.snd
  let events :=
    match filter with
    | some f => events.filter (event_matches f)
    | none => events
  events.mergeSort ts_desc

/-- The step of the loop in
`SubstrateIndexerService::get_chain_infos_batch`: an id is inserted
into the result map only when it equals `MOCK_CHAIN_INFO.id`. -/
def batch_step (acc : List (String × ChainInfo)) (id : String) :
    List (String × ChainInfo) :=
  if id = MOCK_CHAIN_INFO.id then assocInsert acc id MOCK_CHAIN_INFO else acc

/-- The result map built by `get_chain_infos_batch`. -/
def batch_map (ids : List String) : List (String × ChainInfo) :=
  ids.foldl batch_step []

/-- `SubstrateIndexerService::get_chain_infos_batch`: always returns
`Ok` with the map of the requested ids that exist. -/
def get_chain_infos_batch (ids : List String) :
    Except String (List (String × ChainInfo)) :=
  .ok (batch_map ids)

/-- The body of `ChainInfo::current_block_height` in `src/schema.rs` on
an acquired store:
`store.events.values().map(block_number).max().unwrap_or(0)`. -/
def max_block_number (store : MockEventStore) : Nat :=
  ((store.events.map (fun p => p.2.block_number)).max?).getD 0

/-- `ChainInfo::current_block_height` including the mutex acquisition
(`src/schema.rs`): a poisoned lock becomes `AppError::Internal`. -/
def current_block_height (lock : LockResult MockEventStore) :
    Except AppError Nat :=
  match lock with
  | .poisoned msg =>
    .error (.internal ("Failed to lock event store for block height: " ++ msg))
  | .ok store => .ok (max_block_number store)

/-! ### Association-list lemmas -/

theorem assocGet_assocInsert_self {α : Type} (m : List (String × α))
    (k : String) (v : α) : assocGet (assocInsert m k v) k = some v := by
  induction m with
  | nil => simp [assocInsert, assocGet]
  | cons hd tl ih =>
    obtain ⟨k0, v0⟩ := hd
    by_cases h : k0 = k <;> simp [assocInsert, assocGet, h, ih]

theorem assocInsert_assocInsert_same {α : Type} (m : List (String × α))
    (k : String) (v1 v2 : α) :
    assocInsert (assocInsert m k v1) k v2 = assocInsert m k v2 := by
  induction m with
  | nil => simp [assocInsert]
  | cons hd tl ih =>
    obtain ⟨k0, v0⟩ := hd
    by_cases h : k0 = k <;> simp [assocInsert, h, ih]

theorem countP_assocInsert {α : Type} (m : List (String × α)) (k : String)
    (v : α) (hnd : (m.map Prod.fst).Nodup) :
    (assocInsert m k v).countP (fun p => decide (p.1 = k)) = 1 := by
  induction m with
  | nil => simp [assocInsert, List.countP_cons]
  | cons hd tl ih =>
    obtain ⟨k0, v0⟩ := hd
    simp only [List.map_cons, List.nodup_cons] at hnd
    by_cases h : k0 = k
    · subst h
      have hzero : tl.countP (fun p => decide (p.1 = k0)) = 0 := by
        rw [List.countP_eq_zero]
        intro p hp
        simp only [decide_eq_true_eq]
        intro hk
        exact hnd.1 (hk ▸ List.mem_map_of_mem Prod.fst hp)
      simp [assocInsert, List.countP_cons, hzero]
    · simp [assocInsert, h, List.countP_cons, ih hnd.2]

/-! ### C2: insert-then-get -/

/-- C2: for every event `e`, inserting `e` and then looking up `e.id`
returns `e` itself with all fields unchanged (`Some e`, never a
not-found result). -/
theorem insert_then_get (s : MockEventStore) (e : Event) :
    get_event_by_id (insert_event s e) e.id = some e := by
  simp [get_event_by_id, insert_event, assocGet_assocInsert_self]

/-! ### C8: idempotent overwrite -/

/-- C8: inserting `e1` and then `e2` with the same identifier leaves the
store equal to the store obtained by inserting only `e2`, and (given the
map invariant that keys are unique) exactly one record is stored under
that identifier, holding `e2`. -/
theorem insert_overwrite (s : MockEventStore) (e1 e2 : Event)
    (hid : e1.id = e2.id) (hnd : (s.events.map Prod.fst).Nodup) :
    insert_event (insert_event s e1) e2 = insert_event s e2 ∧
    ((insert_event (insert_event s e1) e2).events.countP
      (fun p => decide (p.1 = e2.id))) = 1 ∧
    get_event_by_id (insert_event (insert_event s e1) e2) e2.id = some e2 := by
  refine ⟨?_, ?_, ?_⟩
  · simp only [insert_event, hid, assocInsert_assocInsert_same]
  · simp only [insert_event, hid, assocInsert_assocInsert_same]
    exact countP_assocInsert s.events e2.id e2 hnd
  · simp [get_event_by_id, insert_event, assocGet_assocInsert_self]

/-- Witness for C8 at a concrete store and pair of colliding events. -/
theorem insert_overwrite_witness :
    insert_event (insert_event ⟨[], "c"⟩
        ⟨"e", 1, none, 1, "Balances", "Transfer", Json.null, "c"⟩)
        ⟨"e", 2, none, 2, "System", "NewAccount", Json.null, "c"⟩ =
      insert_event ⟨[], "c"⟩
        ⟨"e", 2, none, 2, "System", "NewAccount", Json.null, "c"⟩ ∧
    ((insert_event (insert_event ⟨[], "c"⟩
        ⟨"e", 1, none, 1, "Balances", "Transfer", Json.null, "c"⟩)
        ⟨"e", 2, none, 2, "System", "NewAccount", Json.null, "c"⟩).events.countP
      (fun p => decide (p.1 = "e"))) = 1 ∧
    get_event_by_id (insert_event (insert_event ⟨[], "c"⟩
        ⟨"e", 1, none, 1, "Balances", "Transfer", Json.null, "c"⟩)
        ⟨"e", 2, none, 2, "System", "NewAccount", Json.null, "c"⟩) "e" =
      some ⟨"e", 2, none, 2, "System", "NewAccount", Json.null, "c"⟩ :=
  insert_overwrite ⟨[], "c"⟩
    ⟨"e", 1, none, 1, "Balances", "Transfer", Json.null, "c"⟩
    ⟨"e", 2, none, 2, "System", "NewAccount", Json.null, "c"⟩
    (by decide) (by simp)

/-! ### C6: batch chain-info lookup -/

theorem batch_foldl (ids : List String) (acc : List (String × ChainInfo))
    (hacc : acc = [] ∨ acc = [(MOCK_CHAIN_INFO.id, MOCK_CHAIN_INFO)]) :
    ids.foldl batch_step acc =
      if MOCK_CHAIN_INFO.id ∈ ids
      then [(MOCK_CHAIN_INFO.id, MOCK_CHAIN_INFO)] else acc := by
  induction ids generalizing acc with
  | nil => simp
  | cons i rest ih =>
    by_cases hid : i = MOCK_CHAIN_INFO.id
    · have hstep : batch_step acc i = [(MOCK_CHAIN_INFO.id, MOCK_CHAIN_INFO)] := by
        rcases hacc with h | h <;> simp [batch_step, hid, h, assocInsert]
      have hrest := ih [(MOCK_CHAIN_INFO.id, MOCK_CHAIN_INFO)] (Or.inr rfl)
      simp only [List.foldl_cons, hstep, hrest]
      have hmem : MOCK_CHAIN_INFO.id ∈ i :: rest := by
        simp [hid.symm]
      by_cases hr : MOCK_CHAIN_INFO.id ∈ rest <;> simp [hmem, hr]
    · have hstep : batch_step acc i = acc := by
        simp [batch_step, hid]
      have hne : ¬ MOCK_CHAIN_INFO.id = i := fun h => hid h.symm
      simp [List.foldl_cons, hstep, ih acc hacc, List.mem_cons, hne]

/-- C6: `get_chain_infos_batch` never fails, and the key set of the
returned map is exactly the subset of the requested ids that exist in
the store (in the mock, the single id `MOCK_CHAIN_INFO.id`); missing
ids are simply absent. -/
theorem chain_infos_batch_spec (ids : List String) :
    get_chain_infos_batch ids = .ok (batch_map ids) ∧
    ∀ k, assocGet (batch_map ids) k =
      if k ∈ ids ∧ k = MOCK_CHAIN_INFO.id then some MOCK_CHAIN_INFO
      else none := by
  refine ⟨rfl, ?_⟩
  intro k
  have h := batch_foldl ids [] (Or.inl rfl)
  rw [batch_map, h]
  by_cases hmem : MOCK_CHAIN_INFO.id ∈ ids
  · by_cases hk : k = MOCK_CHAIN_INFO.id
    · subst hk
      simp [hmem, assocGet]
    · have hne : ¬ MOCK_CHAIN_INFO.id = k := fun h => hk h.symm
      simp [hmem, assocGet, hne, hk]
  · simp only [hmem, if_neg hmem, assocGet]
    have : ¬ (k ∈ ids ∧ k = MOCK_CHAIN_INFO.id) := by
      rintro ⟨hin, rfl⟩
      exact hmem hin
    simp [this]

/-! ### C7: maximum block number -/

/-- C7: `current_block_height` returns 0 on an empty store, returns the
maximum block number over all stored events on a nonempty store, and in
particular returns 10005 after inserting a single event with block
number 10005 into an empty store. -/
theorem max_block_number_spec (s : MockEventStore) (cid : String)
    (e : Event) (h5 : e.block_number = 10005) :
    (s.events = [] → current_block_height (.ok s) = .ok 0) ∧
    (∀ p ∈ s.events, p.2.block_number ≤ max_block_number s) ∧
    (s.events ≠ [] →
      ∃ p ∈ s.events, p.2.block_number = max_block_number s) ∧
    current_block_height (.ok (insert_event ⟨[], cid⟩ e)) = .ok 10005 := by
  refine ⟨?_, ?_, ?_, ?_⟩
  · intro hempty
    simp [current_block_height, max_block_number, hempty]
  · intro p hp
    rcases hmax : (s.events.map (fun p => p.2.block_number)).max? with _ | a
    · rw [List.max?_eq_none_iff, List.map_eq_nil_iff] at hmax
      simp [hmax] at hp
    · have hle := (List.max?_eq_some_iff'.1 hmax).2 p.2.block_number
        (List.mem_map_of_mem (fun p => p.2.block_number) hp)
      simpa [max_block_number, hmax] using hle
  · intro hne
    rcases hmax : (s.events.map (fun p => p.2.block_number)).max? with _ | a
    · rw [List.max?_eq_none_iff, List.map_eq_nil_iff] at hmax
      exact absurd hmax hne
    · obtain ⟨p, hp, hpa⟩ := List.mem_map.1 (List.max?_eq_some_iff'.1 hmax).1
      exact ⟨p, hp, by simp [max_block_number, hmax, hpa]⟩
  · simp [current_block_height, max_block_number, insert_event, assocInsert, h5]

/-- Witness for C7: inserting a concrete event with block number 10005
into an empty store makes `current_block_height` return 10005. -/
theorem max_block_number_witness :
    current_block_height (.ok (insert_event ⟨[], "c"⟩
      ⟨"e", 10005, none, 0, "System", "NewAccount", Json.null, "c"⟩)) =
        .ok 10005 :=
  (max_block_number_spec ⟨[], "c"⟩ "c"
    ⟨"e", 10005, none, 0, "System", "NewAccount", Json.null, "c"⟩ rfl).2.2.2

/-! ### C1: filtered listing -/

theorem ts_desc_trans :
    ∀ (a b c : Event), ts_desc a b → ts_desc b c → ts_desc a c := by
  intro a b c h1 h2
  simp only [ts_desc, decide_eq_true_eq] at *
  omega

theorem ts_desc_total : ∀ (a b : Event), ts_desc a b || ts_desc b a := by
  intro a b
  simp only [ts_desc, Bool.or_eq_true, decide_eq_true_eq]
  omega

theorem event_matches_iff (f : EventFilterInput) (e : Event) :
    event_matches f e = true ↔
      (∀ pn, f.pallet_name_eq = some pn → e.pallet_name = pn) ∧
      (∀ en, f.event_name_eq = some en → e.event_name = en) ∧
      (∀ lo, f.block_number_gte = some lo → lo ≤ e.block_number) ∧
      (∀ hi, f.block_number_lte = some hi → e.block_number ≤ hi) := by
  rcases f with ⟨pn, en, lo, hi⟩
  cases pn <;> cases en <;> cases lo <;> cases hi <;>
    simp [event_matches, and_assoc]

theorem list_events_sorted (l : List Event) :
    (l.mergeSort ts_desc).Pairwise (fun a b => b.timestamp ≤ a.timestamp) := by
  have hs : (l.mergeSort ts_desc).Pairwise (fun a b => ts_desc a b = true) :=
    List.sorted_mergeSort ts_desc_trans ts_desc_total l
  exact hs.imp (fun h => of_decide_eq_true h)

/-- C1: `list_events` with a filter returns exactly (as a permutation)
the stored events satisfying every present predicate of the filter
(ANDed, absent fields unconstrained), ordered by timestamp descending,
and with no filter it returns every stored event, in the same order. -/
theorem list_events_spec (s : MockEventStore) (f : EventFilterInput) :
    (list_events s (some f)).Perm
      ((s.events.map Prod.snd).filter (event_matches f)) ∧
    (list_events s (some f)).Pairwise
      (fun a b => b.timestamp ≤ a.timestamp) ∧
    (∀ e, e ∈ list_events s (some f) ↔
      e ∈ s.events.map Prod.snd ∧
      (∀ pn, f.pallet_name_eq = some pn → e.pallet_name = pn) ∧
      (∀ en, f.event_name_eq = some en → e.event_name = en) ∧
      (∀ lo, f.block_number_gte = some lo → lo ≤ e.block_number) ∧
      (∀ hi, f.block_number_lte = some hi → e.block_number ≤ hi)) ∧
    (list_events s none).Perm (s.events.map Prod.snd) ∧
    (list_events s none).Pairwise (fun a b => b.timestamp ≤ a.timestamp) := by
  refine ⟨?_, ?_, ?_, ?_, ?_⟩
  · exact List.mergeSort_perm _ ts_desc
  · exact list_events_sorted _
  · intro e
    simp only [list_events, List.mem_mergeSort, List.mem_filter,
      event_matches_iff, and_assoc]
  · exact List.mergeSort_perm _ ts_desc
  · exact list_events_sorted _

/-- A concrete event used in witnesses and counterexamples. -/
def mk_event (i : Nat) : Event :=
  { id := toString i
    block_number := 10000 + i
    extrinsic_id := none
    timestamp := Int.ofNat i
    pallet_name := "Balances"
    event_name := "Transfer"
    data := Json.null
    chain_id := "polkadot-mainnet-mock" }

/-- Witness for C1 at a concrete two-event store and a concrete filter
restricting the block number. -/
theorem list_events_spec_witness :
    (list_events ⟨[("0", mk_event 0), ("1", mk_event 1)], "c"⟩
        (some ⟨none, none, some 10001, none⟩)).Perm
      (([("0", mk_event 0), ("1", mk_event 1)].map Prod.snd).filter
        (event_matches ⟨none, none, some 10001, none⟩)) ∧
    (list_events ⟨[("0", mk_event 0), ("1", mk_event 1)], "c"⟩
        (some ⟨none, none, some 10001, none⟩)).Pairwise
      (fun a b => b.timestamp ≤ a.timestamp) :=
  ⟨(list_events_spec ⟨[("0", mk_event 0), ("1", mk_event 1)], "c"⟩
      ⟨none, none, some 10001, none⟩).1,
   (list_events_spec ⟨[("0", mk_event 0), ("1", mk_event 1)], "c"⟩
      ⟨none, none, some 10001, none⟩).2.1⟩

/-! ### C9: poisoned-lock lookups -/

/-- C9: a lookup while the store lock is poisoned produces
`AppError::Internal` and propagates it to the caller: the result is the
error itself, never recovered into a successful result. -/
theorem poisoned_lock_propagates (msg id : String) :
    get_event_by_id_locked (.poisoned msg) id =
      .error (.internal ("Failed to lock event store: " ++ msg)) ∧
    (get_event_by_id_locked (.poisoned msg) id).isOk = false := by
  exact ⟨rfl, rfl⟩

/-! ### C4 and C5: the dataloader batching window -/

/-- `ChainInfoLoader::load` from `src/dataloader.rs`, parametrized by
the underlying batch fetch (the `indexer_service` field, whose
`get_chain_infos_batch` method is the fetch actually used): the keys
given by the dataloader are mapped 1-1 to ids, one single fetch is
issued for them, a fetch error is wrapped in `AppError::ServiceError`,
and the fetched map is re-keyed unchanged. -/
def loader_load
    (fetch : List String → Except String (List (String × ChainInfo)))
    (keys : List String) : Except AppError (List (String × ChainInfo)) :=
  match fetch keys with
  | .error e =>
    .error (.serviceError ("Failed to batch fetch chain_infos: " ++ e))
  | .ok m => .ok m

/-- Trace of one batching window: the key set of every dispatched batch
fetch, and the outcome delivered to each of the callers in window
order. -/
structure WindowRun where
  calls : List (List String)
  results : List (Except AppError (Option ChainInfo))

/-- Modelled from the spec: the batching window of the async-graphql
`DataLoader` wrapper (`AppDataloader` in `src/dataloader.rs`), whose
dispatch loop lives outside this repository.  Per §4.3 of the
specification the window collects the keys of all `load_one` calls of
one tick (`keys`, one entry per caller), deduplicates them, dispatches
a single `Loader::load` call — here `loader_load`, the repository's
implementation — and hands each caller the entry for its own key, or
the one shared error when the batch fetch failed. -/
def run_window
    (fetch : List String → Except String (List (String × ChainInfo)))
    (keys : List String) : WindowRun :=
  let distinct := keys.dedup
  match loader_load fetch distinct with
  | .error err =>
    { calls := [distinct], results := keys.map (fun _ => .error err) }
  | .ok m =>
    { calls := [distinct], results := keys.map (fun k => .ok (assocGet m k)) }

/-- C4: in a window of N `load_one` calls the underlying batch fetch is
dispatched exactly once, with exactly the deduplicated distinct keys of
the window, and (when it succeeds) every caller receives the fetched
result for its own key. -/
theorem batch_dedup_once
    (fetch : List String → Except String (List (String × ChainInfo)))
    (keys : List String) (m : List (String × ChainInfo))
    (hok : fetch keys.dedup = .ok m) :
    (run_window fetch keys).calls = [keys.dedup] ∧
    keys.dedup.Nodup ∧
    (∀ k, k ∈ keys.dedup ↔ k ∈ keys) ∧
    (run_window fetch keys).results.length = keys.length ∧
    (∀ i (h : i < keys.length),
      (run_window fetch keys).results[i]? =
        some (.ok (assocGet m keys[i]))) := by
  refine ⟨?_, keys.nodup_dedup, fun k => List.mem_dedup, ?_, ?_⟩
  · simp [run_window, loader_load, hok]
  · simp [run_window, loader_load, hok]
  · intro i h
    simp [run_window, loader_load, hok, List.getElem?_map,
      List.getElem?_eq_getElem h]

/-- Witness for C4: three callers, two distinct keys; the one dispatched
fetch carries exactly the two deduplicated keys. -/
theorem batch_dedup_once_witness :
    (run_window get_chain_infos_batch
      ["polkadot-mainnet-mock", "c1", "polkadot-mainnet-mock"]).calls =
      [["polkadot-mainnet-mock", "c1", "polkadot-mainnet-mock"].dedup] ∧
    ["polkadot-mainnet-mock", "c1", "polkadot-mainnet-mock"].dedup.Nodup :=
  ⟨(batch_dedup_once get_chain_infos_batch
      ["polkadot-mainnet-mock", "c1", "polkadot-mainnet-mock"]
      (batch_map (["polkadot-mainnet-mock", "c1",
        "polkadot-mainnet-mock"].dedup)) rfl).1,
   (batch_dedup_once get_chain_infos_batch
      ["polkadot-mainnet-mock", "c1", "polkadot-mainnet-mock"]
      (batch_map (["polkadot-mainnet-mock", "c1",
        "polkadot-mainnet-mock"].dedup)) rfl).2.1⟩

/-- C5: if the underlying batch fetch of a window fails, every caller of
the window receives the same single shared `ServiceError`; otherwise
each caller receives exactly the fetched result for its own key
(its value, or a not-found `none`). -/
theorem batch_error_shared
    (fetch : List String → Except String (List (String × ChainInfo)))
    (keys : List String) :
    (∀ e, fetch keys.dedup = .error e →
      ∀ i (h : i < keys.length),
        (run_window fetch keys).results[i]? =
          some (.error (.serviceError
            ("Failed to batch fetch chain_infos: " ++ e)))) ∧
    (∀ m, fetch keys.dedup = .ok m →
      ∀ i (h : i < keys.length),
        (run_window fetch keys).results[i]? =
          some (.ok (assocGet m keys[i]))) := by
  constructor
  · intro e he i h
    simp [run_window, loader_load, he, List.getElem?_map,
      List.getElem?_replicate, List.getElem?_eq_getElem h, h]
  · intro m hm i h
    simp [run_window, loader_load, hm, List.getElem?_map,
      List.getElem?_eq_getElem h]

/-- Witness for C5: a failing fetch delivers the shared wrapped error to
both callers of a two-caller window. -/
theorem batch_error_shared_witness :
    (run_window (fun _ => .error "boom") ["a", "b"]).results[0]? =
      some (.error (.serviceError
        ("Failed to batch fetch chain_infos: " ++ "boom"))) ∧
    (run_window (fun _ => .error "boom") ["a", "b"]).results[1]? =
      some (.error (.serviceError
        ("Failed to batch fetch chain_infos: " ++ "boom"))) :=
  ⟨(batch_error_shared (fun _ => .error "boom") ["a", "b"]).1 "boom" rfl 0
      (by decide),
   (batch_error_shared (fun _ => .error "boom") ["a", "b"]).1 "boom" rfl 1
      (by decide)⟩

/-! ### C3: lagged subscribers -/

/-- Capacity of the broadcast channel: `broadcast::channel(100)` in
`src/indexer.rs`. -/
def CHANNEL_CAPACITY : Nat := 100

/-- One result yielded by the raw broadcast receiver, modelling the
`Result<Event, BroadcastStreamRecvError>` items of a `BroadcastStream`:
either the next event, or the distinguishable `Lagged(n)` signal. -/
inductive RecvResult where
  | ok (e : Event)
  | lagged (missed : Nat)

/-- Modelled from the spec (§4.2), at the interface boundary of the
tokio broadcast channel held by `MOCK_EVENT_STORE`: `published` is the
entire publish history and `cursor` the subscriber's position in it.
When the subscriber's backlog exceeds the capacity, the read yields the
`lagged` signal carrying the number of dropped events and the cursor
jumps to the oldest event still retained; otherwise the read yields the
next event; `none` models a read that would suspend (no backlog). -/
def broadcast_recv (published : List Event) (cursor : Nat) :
    Option (RecvResult × Nat) :=
  if published.length > cursor + CHANNEL_CAPACITY then
    some (.lagged (published.length - CHANNEL_CAPACITY - cursor),
          published.length - CHANNEL_CAPACITY)
  else
    match published[cursor]? with
    | some e => some (.ok e, cursor + 1)
    | none => none

/-- The results the raw receiver yields before suspending, bounded by a
fuel argument (every read strictly advances the cursor, so
`published.length + 1` fuel always suffices). -/
def raw_drain_fuel (fuel : Nat) (published : List Event) (cursor : Nat) :
    List RecvResult :=
  match fuel with
  | 0 => []
  | fuel + 1 =>
    match broadcast_recv published cursor with
    | none => []
    | some rc => rc.1 :: raw_drain_fuel fuel published rc.2

/-- All results the raw receiver yields before suspending. -/
def raw_drain (published : List Event) (cursor : Nat) : List RecvResult :=
  raw_drain_fuel (published.length + 1) published cursor

/-- The `filter_map` closure in `SubstrateIndexerService::watch_events`:
an `Ok(event)` item is kept, the error case — the lagged signal — is
logged and mapped to `None`, i.e. removed from the stream. -/
def watch_filter (r : RecvResult) : Option Event :=
  match r with
  | .ok e => some e
  | .lagged _ => none

/-- The stream returned by `watch_events`
(`BroadcastStream::new(rx).filter_map(...)` in `src/indexer.rs`): the
items the consumer observes. -/
def watch_drain (published : List Event) (cursor : Nat) : List Event :=
  (raw_drain published cursor).filterMap watch_filter

theorem raw_drain_fuel_no_lag (fuel : Nat) :
    ∀ (published : List Event) (cursor : Nat),
      published.length ≤ cursor + CHANNEL_CAPACITY →
      published.length - cursor ≤ fuel →
      raw_drain_fuel fuel published cursor =
        (published.drop cursor).map RecvResult.ok := by
  induction fuel with
  | zero =>
    intro p c hc hf
    have hle : p.length ≤ c := by omega
    simp [raw_drain_fuel, List.drop_eq_nil_of_le hle]
  | succ fuel ih =>
    intro p c hc hf
    have hnl : ¬ p.length > c + CHANNEL_CAPACITY := by omega
    by_cases hcur : c < p.length
    · rw [raw_drain_fuel]
      simp only [broadcast_recv, if_neg hnl, List.getElem?_eq_getElem hcur]
      rw [ih p (c + 1) (by omega) (by omega),
        List.drop_eq_getElem_cons hcur, List.map_cons]
    · have hnone : p[c]? = none := by
        rw [List.getElem?_eq_none_iff]
        omega
      rw [raw_drain_fuel]
      simp [broadcast_recv, if_neg hnl, hnone,
        List.drop_eq_nil_of_le (by omega : p.length ≤ c)]

/-- C3 (amended): when a subscriber's backlog exceeds the channel
capacity C = 100, the raw broadcast receiver does surface a
distinguishable lagged signal as its next read and advances the cursor
to the oldest retained event — the gap is dropped, never replayed, and
the publisher is never blocked — but the stream returned by
`watch_events` filters that signal out (it is only logged), so the
consumer-facing stream of events silently skips the gap. -/
theorem lag_signal_filtered (published : List Event) (cursor : Nat)
    (hlag : published.length > cursor + CHANNEL_CAPACITY) :
    broadcast_recv published cursor =
      some (.lagged (published.length - CHANNEL_CAPACITY - cursor),
            published.length - CHANNEL_CAPACITY) ∧
    raw_drain published cursor =
      .lagged (published.length - CHANNEL_CAPACITY - cursor) ::
        (published.drop (published.length - CHANNEL_CAPACITY)).map
          RecvResult.ok ∧
    watch_drain published cursor =
      published.drop (published.length - CHANNEL_CAPACITY) := by
  have hrecv : broadcast_recv published cursor =
      some (.lagged (published.length - CHANNEL_CAPACITY - cursor),
            published.length - CHANNEL_CAPACITY) := by
    simp [broadcast_recv, if_pos hlag]
  have hraw : raw_drain published cursor =
      .lagged (published.length - CHANNEL_CAPACITY - cursor) ::
        (published.drop (published.length - CHANNEL_CAPACITY)).map
          RecvResult.ok := by
    simp only [raw_drain, raw_drain_fuel, hrecv]
    rw [raw_drain_fuel_no_lag published.length published
      (published.length - CHANNEL_CAPACITY) (by omega) (by omega)]
  refine ⟨hrecv, hraw, ?_⟩
  rw [watch_drain, hraw, List.filterMap_cons]
  simp only [watch_filter, List.filterMap_map]
  exact List.filterMap_some _

/-- The publish history used in the C3 witness and counterexample: 101
events, one more than the channel capacity. -/
def published101 : List Event := (List.range 101).map mk_event

/-- Witness for C3 (amended) with the subscriber at position 0 of a
101-event history: the raw receiver yields `Lagged(1)` and jumps to
position 1; the consumer stream yields the 100 retained events only. -/
theorem lag_signal_filtered_witness :
    broadcast_recv published101 0 = some (.lagged 1, 1) ∧
    raw_drain published101 0 =
      .lagged 1 :: (published101.drop 1).map RecvResult.ok ∧
    watch_drain published101 0 = published101.drop 1 := by
  have hlen : published101.length = 101 := by
    simp [published101]
  have h := lag_signal_filtered published101 0 (by rw [hlen]; decide)
  rw [hlen] at h
  simpa [CHANNEL_CAPACITY] using h

/-- C3 counterexample: with 101 events published and a subscriber that
has read none of them, the backlog exceeds the capacity and the raw
receiver yields the lagged signal first — but the stream `watch_events`
returns yields plain events only: its next item is just the second
event, it is one item shorter than the raw result sequence, and it
equals the retained events with the lagged indication removed.  The
claim that the lagged indication is surfaced to the consumer on its
stream and never silently dropped is therefore false on this input. -/
theorem lag_signal_counterexample :
    published101.length = 101 ∧
    CHANNEL_CAPACITY = 100 ∧
    (raw_drain published101 0).head? = some (.lagged 1) ∧
    (raw_drain published101 0).length = 101 ∧
    (watch_drain published101 0).head? = some (mk_event 1) ∧
    (watch_drain published101 0).length = 100 ∧
    watch_drain published101 0 = published101.drop 1 := by
  refine ⟨by simp [published101], rfl, ?_, ?_, ?_, ?_, ?_⟩
  · rfl
  · rfl
  · rfl
  · rfl
  · rfl

/-! ### C10: read operations do not modify the store -/

/-- The read operations exposed by the service. -/
inductive StoreOp where
  | getById (id : String)
  | listEvts (filter : Option EventFilterInput)
  | chainBatch (ids : List String)
  | maxBlock

/-- The result of a read operation. -/
inductive StoreResult where
  | event (r : Option Event)
  | events (r : List Event)
  | chains (r : Except String (List (String × ChainInfo)))
  | blockNum (r : Nat)

/-- The read operations in state-passing form: each returns its result
together with the store it leaves behind.  The source locks the store,
reads and clones, and drops the guard without writing
(`get_event_by_id`, `list_events`, `get_chain_infos_batch` in
`src/indexer.rs`; `current_block_height` in `src/schema.rs`). -/
def run_read (s : MockEventStore) (op : StoreOp) :
    StoreResult × MockEventStore :=
  match op with
  | .getById id => (.event (get_event_by_id s id), s)
  | .listEvts f => (.events (list_events s f), s)
  | .chainBatch ids => (.chains (get_chain_infos_batch ids), s)
  | .maxBlock => (.blockNum (max_block_number s), s)

/-- C10: none of the read operations modifies the store — the event map
and the chain id are unchanged (the chain-info record
`MOCK_CHAIN_INFO` is a constant no operation writes). -/
theorem reads_leave_store_unchanged (s : MockEventStore) (op : StoreOp) :
    (run_read s op).2.events = s.events ∧
    (run_read s op).2.chain_id = s.chain_id := by
  cases op <;> exact ⟨rfl, rfl⟩

end ChainMeta
